import Mathlib

/-!
Verification of the database abstraction layer of the tujifund-app
repository: query transformation, schema application, the SQLite driver's
connect procedure, and the (spec-described) migration runner.

Strings are modelled as Lean `String` (a list of characters); the Go
standard-library helpers used by the source (`strings.Split`,
`strings.TrimSpace`, `strings.Contains`) are embedded as executable
functions on `List Char`.
-/

/-- Model of Go `strings.Split(s, sep)` for a one-character separator:
splits a character list at every occurrence of `c`.  `strings.Split("", sep)`
returns one empty element, hence the `[[]]` base case. -/
def splitOn (c : Char) : List Char → List (List Char)
  | [] => [[]]
  | x :: xs =>
    match splitOn c xs with
    | [] => [[x]]
    | p :: ps => if x = c then [] :: p :: ps else (x :: p) :: ps

/-- Auxiliary for substring search: does `needle` occur at the very start
of the haystack? -/
def beginsWith : List Char → List Char → Bool
  | [], _ => true
  | _ :: _, [] => false
  | x :: xs, y :: ys => x == y && beginsWith xs ys

/-- Model of Go `strings.Contains(hay, needle)`: does `needle` occur as a
contiguous substring of the haystack? -/
def containsSub (needle : List Char) : List Char → Bool
  | [] => beginsWith needle []
  | y :: ys => beginsWith needle (y :: ys) || containsSub needle ys

/-- Model of Go `strings.TrimSpace`: remove leading and trailing
whitespace characters. -/
def trimChars (l : List Char) : List Char :=
  ((l.dropWhile Char.isWhitespace).reverse.dropWhile Char.isWhitespace).reverse

/-- The characters of the positional marker `fmt.Sprintf("$%d", i)`. -/
def pgNum (i : Nat) : List Char := '$' :: (Nat.repr i).data

/-- The rejoin loop of the PostgreSQL `TransformQuery`:
`result += "$i" + parts[i]` for `i = 1, 2, ...`. -/
def pgJoin : Nat → List (List Char) → List Char
  | _, [] => []
  | i, p :: ps => pgNum i ++ p ++ pgJoin (i + 1) ps

/-- `PostgresDriver.TransformQuery` from the source: split the query on
every `?` character (`strings.Split(query, "?")`); if there is at most one
part return the query unchanged, otherwise rejoin the parts with the
sequential markers `$1`, `$2`, ... -/
def PostgresDriver.TransformQuery (q : String) : String :=
  match splitOn '?' q.data with
  | [] => q
  | [_] => q
  | p :: ps => String.mk (p ++ pgJoin 1 ps)

/-- `SQLiteDriver.TransformQuery` from the source: the identity function
(`return query`). -/
def SQLiteDriver.TransformQuery (q : String) : String := q

/-- Outcome of a schema application: the final database state, the
statements actually sent to `Exec` (in order), and the returned error. -/
structure SchemaOutcome (σ : Type) where
  state : σ
  executed : List String
  err : Option String
deriving Repr

/-- The statement loop of `SchemaManager.InitializeSchema` from the source:
for each statement, transform it with the driver's `TransformQuery`, run it
through `Exec`; an execution failure whose message contains
`"already exists"` is ignored, any other failure returns
`fmt.Errorf("failed to execute schema statement: %w", err)` immediately.
The driver's database is modelled by a state `σ` threaded through `exec`. -/
def runStmts {σ : Type} (tq : String → String) (exec : σ → String → σ × Option String) :
    σ → List String → SchemaOutcome σ
  | st, [] => ⟨st, [], none⟩
  | st, s :: rest =>
    let s' := tq s
    let r := exec st s'
    match r.2 with
    | none =>
      let o := runStmts tq exec r.1 rest
      ⟨o.state, s' :: o.executed, o.err⟩
    | some e =>
      if containsSub ("already exists".data) e.data then
        let o := runStmts tq exec r.1 rest
        ⟨o.state, s' :: o.executed, o.err⟩
      else
        ⟨r.1, [s'], some ("failed to execute schema statement: " ++ e)⟩

/-- The statement preparation of `SchemaManager.InitializeSchema` from the
source: `strings.Split(string(schema), ";")`, then `strings.TrimSpace` on
each part, skipping the parts that are empty after trimming. -/
def schemaStmts (schema : String) : List String :=
  ((splitOn ';' schema.data).map (fun l => String.mk (trimChars l))).filter
    (fun s => s != "")

/-- `SchemaManager.InitializeSchema` from the source, over an abstract
database state `σ`, a driver transform `tq` and an execution oracle `exec`
standing for `driver.Exec`. -/
def SchemaManager.InitializeSchema {σ : Type} (tq : String → String)
    (exec : σ → String → σ × Option String) (schema : String) (st : σ) :
    SchemaOutcome σ :=
  runStmts tq exec st (schemaStmts schema)

/-- A toy database engine used to exercise the schema manager: the state is
the list of already-created objects; re-creating an existing object fails
non-fatally with a message containing `"already exists"`, matching the
behaviour of the underlying engines the source relies on. -/
def toyEngine (objs : List String) (stmt : String) : List String × Option String :=
  if stmt ∈ objs then (objs, some ("table " ++ stmt ++ " already exists"))
  else (stmt :: objs, none)

/-- An execution oracle that fails with an unrelated error (`"boom"`) on
the second statement of the schema used in the counterexample below. -/
def cexExec : Unit → String → Unit × Option String :=
  fun st s => if s = "CREATE TABLE b (y INT)" then (st, some "boom") else (st, none)


/-- Modelled from the spec: the repository's migration routine
`migrateData` is an unimplemented stub (its body is only a comment and
`return nil`), so the Migration Runner of spec section 4.5 is modelled
here.  One table is migrated in batches of size `B`: each step takes the
next batch of the remaining rows, inserts it in one target transaction and
commits, after which the committed target (and hence the offset cursor,
which equals the number of committed rows) advances by the batch.  `fuel`
bounds the number of batches performed, so a run with small fuel models a
run interrupted after that many committed batches.  The result is the
committed target table together with the number of batches performed. -/
def migrateGo {α : Type} (B : Nat) : Nat → List α → List α → List α × Nat
  | 0, _, tgt => (tgt, 0)
  | _ + 1, [], tgt => (tgt, 0)
  | fuel + 1, r :: rs, tgt =>
    let batch := (r :: rs).take B
    let o := migrateGo B fuel ((r :: rs).drop B) (tgt ++ batch)
    (o.1, o.2 + 1)

/-- `DBConfig` from the source (`config.go`, plus the `ConnMaxLifetime`
field of the design document's variant); defaults are the Go zero values. -/
structure DBConfig where
  driver : String := ""
  dbName : String := ""
  sqlitePath : String := ""
  host : String := ""
  port : Int := 0
  userName : String := ""
  password : String := ""
  sslMode : String := ""
  maxOpenConns : Int := 0
  maxIdleConns : Int := 0
  connMaxLifetime : Int := 0
deriving DecidableEq, Repr

/-- `NewSQLiteConfig` from the source: the default SQLite configuration,
whose pool limit is 1 because SQLite supports only one writer. -/
def NewSQLiteConfig (path : String) : DBConfig :=
  { driver := "sqlite", sqlitePath := path,
    maxOpenConns := 1, maxIdleConns := 2, connMaxLifetime := 3600 }

/-- A connection pool as configured by `Connect`: the DSN it was opened
with and the limits applied by `SetMaxOpenConns` / `SetMaxIdleConns`. -/
structure Pool where
  dsn : String
  maxOpen : Int
  maxIdle : Int
deriving DecidableEq, Repr

/-- The fields of `SQLiteDriver`: the pool handle `db` (absent before a
successful `Connect`) and the stored configuration. -/
structure SQLiteDriverState where
  db : Option Pool := none
  conf : DBConfig := {}
deriving DecidableEq, Repr

/-- Environment for one `Connect` call: the outcomes of the external
operations it performs (`os.MkdirAll`, `sql.Open`, `db.Ping`) and the
engine's response to a statement sent through `db.Exec`. -/
structure ConnectEnv where
  mkdirErr : Option String
  openErr : Option String
  pingErr : Option String
  exec : String → Option String

/-- The DSN built by `SQLiteDriver.Connect`:
`fmt.Sprintf("file:%s?cache=shared&_journal_mode=WAL", conf.SQLitePath)`. -/
def sqliteDSN (path : String) : String :=
  "file:" ++ path ++ "?cache=shared&_journal_mode=WAL"

/-- The statement `SQLiteDriver.Connect` sends to enable foreign keys,
exactly as it appears in the source (note the trailing colon). -/
def sqliteFKPragma : String := "PRAGMA foreign_keys = ON:"

/-- `SQLiteDriver.Connect` from the source.  Faithful to the source, the
result of `sql.Open` is never consulted (`if err != nil { }` has an empty
body), so `env.openErr` is ignored; on the success path the pool limits
are set from the configuration unchanged. -/
def sqliteConnect (env : ConnectEnv) (d : SQLiteDriverState) (conf : DBConfig) :
    SQLiteDriverState × Option String :=
  match env.mkdirErr with
  | some e => (d, some ("failed to create database directory: " ++ e))
  | none =>
    match env.pingErr with
    | some e => (d, some ("failed to ping the SQLite database: " ++ e))
    | none =>
      match env.exec sqliteFKPragma with
      | some e => (d, some ("failed to enable foreign keys: " ++ e))
      | none =>
        ({ db := some { dsn := sqliteDSN conf.sqlitePath,
                        maxOpen := conf.maxOpenConns,
                        maxIdle := conf.maxIdleConns },
           conf := conf }, none)

/-- A `Connect` environment in which every external operation succeeds. -/
def envOk : ConnectEnv :=
  { mkdirErr := none, openErr := none, pingErr := none, exec := fun _ => none }

/-- A fresh, not yet connected `SQLiteDriver` value. -/
def d0 : SQLiteDriverState := {}

/-- A configuration requesting five open connections, used to show that
`Connect` does not cap the pool at one writer. -/
def cfg5 : DBConfig := { NewSQLiteConfig "data/app.db" with maxOpenConns := 5 }

theorem splitOn_eq_of_not_mem (c : Char) (l : List Char) (h : c ∉ l) :
    splitOn c l = [l] := by
  induction l with
  | nil => rfl
  | cons x xs ih =>
    have hx : ¬ x = c := fun hxc => h (by simp [hxc])
    have hxs : c ∉ xs := fun hm => h (by simp [hm])
    simp [splitOn, ih hxs, hx]

/-- C1: on the first example the client/server `TransformQuery` produces the
claimed rewriting, but on the second it rewrites the `?` standing inside the
single-quoted literal as well — the source splits on every `?` character —
so the output is `"SELECT '$1' FROM t WHERE a=$2"`, not the
`"SELECT '?' FROM t WHERE a=$1"` the claim states. -/
theorem postgres_transform_literal_eval :
    PostgresDriver.TransformQuery "SELECT * FROM t WHERE a=? AND b=?" =
      "SELECT * FROM t WHERE a=$1 AND b=$2" ∧
    PostgresDriver.TransformQuery "SELECT '?' FROM t WHERE a=?" =
      "SELECT '$1' FROM t WHERE a=$2" ∧
    PostgresDriver.TransformQuery "SELECT '?' FROM t WHERE a=?" ≠
      "SELECT '?' FROM t WHERE a=$1" :=
  ⟨by decide, by decide, by decide⟩

/-- C6: the embedded-engine `TransformQuery` is the identity on every
statement, hence idempotent. -/
theorem sqlite_transform_identity (q : String) :
    SQLiteDriver.TransformQuery q = q ∧
    SQLiteDriver.TransformQuery (SQLiteDriver.TransformQuery q) =
      SQLiteDriver.TransformQuery q :=
  ⟨rfl, rfl⟩

/-- C7: for both drivers `TransformQuery` is deterministic on every input
statement — any two invocations on identical inputs yield identical
outputs, with no restriction on the statement — and a statement containing
no `?` placeholder is returned unchanged. -/
theorem transform_pure_no_placeholder (q : String) (h : '?' ∉ q.data) :
    PostgresDriver.TransformQuery q = q ∧
    SQLiteDriver.TransformQuery q = q ∧
    (∀ q1 q2 : String, q1 = q2 →
      PostgresDriver.TransformQuery q1 = PostgresDriver.TransformQuery q2 ∧
      SQLiteDriver.TransformQuery q1 = SQLiteDriver.TransformQuery q2) := by
  refine ⟨?_, rfl, ?_⟩
  · unfold PostgresDriver.TransformQuery
    rw [splitOn_eq_of_not_mem '?' q.data h]
  · intro q1 q2 hq
    rw [hq]
    exact ⟨rfl, rfl⟩

/-- Witness for C7: a concrete placeholder-free statement is returned
unchanged, and determinism is exercised at a concrete statement that does
contain placeholders. -/
theorem transform_pure_no_placeholder_w :
    PostgresDriver.TransformQuery "SELECT id FROM users" = "SELECT id FROM users" ∧
    PostgresDriver.TransformQuery "SELECT * FROM t WHERE a=? AND b=?" =
      PostgresDriver.TransformQuery "SELECT * FROM t WHERE a=? AND b=?" :=
  ⟨(transform_pure_no_placeholder "SELECT id FROM users" (by decide)).1,
   ((transform_pure_no_placeholder "SELECT id FROM users" (by decide)).2.2
      "SELECT * FROM t WHERE a=? AND b=?" "SELECT * FROM t WHERE a=? AND b=?"
      rfl).1⟩

theorem runStmts_executed_of_err_none {σ : Type} (tq : String → String)
    (exec : σ → String → σ × Option String) :
    ∀ (l : List String) (st : σ),
      (runStmts tq exec st l).err = none →
      (runStmts tq exec st l).executed = l.map tq := by
  intro l
  induction l with
  | nil => exact fun st _ => rfl
  | cons s rest ih =>
    intro st h
    rcases heq : (exec st (tq s)).2 with _ | e
    · simp only [runStmts, heq] at h ⊢
      simp only [List.map_cons]
      rw [ih _ h]
    · simp only [runStmts, heq] at h ⊢
      cases hc : containsSub ("already exists".data) e.data
      · simp [hc] at h
      · simp only [hc, if_pos] at h ⊢
        simp only [List.map_cons]
        rw [ih _ h]

theorem runStmts_prefix_fold {σ : Type} (tq : String → String)
    (exec : σ → String → σ × Option String) :
    ∀ (l : List String) (st : σ),
      (runStmts tq exec st l).executed =
        (l.map tq).take (runStmts tq exec st l).executed.length ∧
      (runStmts tq exec st l).state =
        (runStmts tq exec st l).executed.foldl (fun a q => (exec a q).1) st := by
  intro l
  induction l with
  | nil => exact fun st => ⟨rfl, rfl⟩
  | cons s rest ih =>
    intro st
    rcases heq : (exec st (tq s)).2 with _ | e
    · simp only [runStmts, heq, List.map_cons, List.length_cons, List.take_succ_cons,
        List.foldl_cons]
      exact ⟨by rw [← (ih _).1], by rw [← (ih _).2]⟩
    · simp only [runStmts, heq]
      cases hc : containsSub ("already exists".data) e.data
      · simp only [Bool.false_eq_true, if_false, List.map_cons, List.length_cons,
          List.length_nil, List.take_succ_cons, List.take_zero, List.foldl_cons,
          List.foldl_nil]
        exact ⟨trivial, trivial⟩
      · simp only [hc, if_pos, List.map_cons, List.length_cons, List.take_succ_cons,
          List.foldl_cons]
        exact ⟨by rw [← (ih _).1], by rw [← (ih _).2]⟩

theorem runStmts_err_shape {σ : Type} (tq : String → String)
    (exec : σ → String → σ × Option String) :
    ∀ (l : List String) (st : σ) (m : String),
      (runStmts tq exec st l).err = some m →
      (runStmts tq exec st l).executed ≠ [] ∧
      ∃ e, m = "failed to execute schema statement: " ++ e ∧
        containsSub ("already exists".data) e.data = false := by
  intro l
  induction l with
  | nil => intro st m h; cases h
  | cons s rest ih =>
    intro st m h
    rcases heq : (exec st (tq s)).2 with _ | e
    · simp only [runStmts, heq] at h ⊢
      exact ⟨by simp, ((ih _ _ h).2)⟩
    · simp only [runStmts, heq] at h ⊢
      cases hc : containsSub ("already exists".data) e.data
      · simp only [hc] at h ⊢
        simp only [Bool.false_eq_true, if_false] at h ⊢
        refine ⟨by simp, e, ?_, hc⟩
        cases h
        rfl
      · simp only [hc, if_pos] at h ⊢
        exact ⟨by simp, ((ih _ _ h).2)⟩

theorem runStmts_swallow {σ : Type} (tq : String → String)
    (exec : σ → String → σ × Option String)
    (hx : ∀ (st : σ) (s e : String), (exec st s).2 = some e →
      containsSub ("already exists".data) e.data = true) :
    ∀ (l : List String) (st : σ), (runStmts tq exec st l).err = none := by
  intro l
  induction l with
  | nil => exact fun st => rfl
  | cons s rest ih =>
    intro st
    rcases heq : (exec st (tq s)).2 with _ | e
    · simp only [runStmts, heq]
      exact ih _
    · simp only [runStmts, heq, hx st (tq s) e heq, if_pos]
      exact ih _

theorem beginsWith_self (l : List Char) : beginsWith l l = true := by
  induction l with
  | nil => rfl
  | cons x xs ih => simp [beginsWith, ih]

theorem containsSub_append_self (n pre : List Char) :
    containsSub n (pre ++ n) = true := by
  induction pre with
  | nil =>
    cases n with
    | nil => rfl
    | cons x xs =>
      simp only [List.nil_append, containsSub, beginsWith_self, Bool.true_or]
  | cons p ps ih =>
    simp [containsSub, ih]

theorem toyEngine_err_already_exists (objs : List String) (s e : String)
    (h : (toyEngine objs s).2 = some e) :
    containsSub ("already exists".data) e.data = true := by
  unfold toyEngine at h
  split at h
  · injection h with he
    subst he
    have hdata : ("table " ++ s ++ " already exists").data
        = (("table ".data ++ s.data) ++ [' ']) ++ "already exists".data := by
      show ("table ".data ++ s.data) ++ (' ' :: "already exists".data) = _
      simp
    rw [hdata]
    exact containsSub_append_self _ _
  · cases h

/-- C3 counterexample: the schema splitter does NOT respect quoted
literals — a `;` inside a single-quoted string literal splits the
statement, so `"INSERT INTO t VALUES ('a;b');"` is broken into two
fragments instead of staying one statement. -/
theorem schema_split_inside_literal_cex :
    schemaStmts "INSERT INTO t VALUES ('a;b');" =
      ["INSERT INTO t VALUES ('a", "b')"] ∧
    schemaStmts "INSERT INTO t VALUES ('a;b');" ≠
      ["INSERT INTO t VALUES ('a;b')"] :=
  ⟨by decide, by decide⟩

/-- C3 (amended): schema application splits the schema source on every
occurrence of the statement terminator — including occurrences inside
quoted literals — trims each part, discards blank statements, and (when no
fatal error occurs) executes exactly the remaining statements, each first
passed through the driver's `TransformQuery`, in source order. -/
theorem schema_exec_in_order {σ : Type} (tq : String → String)
    (exec : σ → String → σ × Option String) (schema : String) (st : σ)
    (h : (SchemaManager.InitializeSchema tq exec schema st).err = none) :
    (SchemaManager.InitializeSchema tq exec schema st).executed =
      (schemaStmts schema).map tq :=
  runStmts_executed_of_err_none tq exec (schemaStmts schema) st h

/-- Witness for the amended C3 on a concrete two-statement schema. -/
theorem schema_exec_in_order_w :
    (SchemaManager.InitializeSchema (σ := Unit) id (fun st _ => (st, none))
        "CREATE TABLE a (x INT);\nCREATE TABLE b (y INT);" ()).executed =
      ["CREATE TABLE a (x INT)", "CREATE TABLE b (y INT)"] := by
  have h := schema_exec_in_order (σ := Unit) id (fun st _ => (st, none))
      "CREATE TABLE a (x INT);\nCREATE TABLE b (y INT);" () (by decide)
  rw [h]
  decide

/-- C4 counterexample: a fatal statement failure is wrapped as
`"failed to execute schema statement: <cause>"`; the reported error
contains neither the 0-based index (`1`) nor the text of the failing
statement, contrary to the claim. -/
theorem schema_error_detail_cex :
    (SchemaManager.InitializeSchema id cexExec
        "CREATE TABLE a (x INT);CREATE TABLE b (y INT);" ()).err =
      some "failed to execute schema statement: boom" ∧
    containsSub ("CREATE TABLE b (y INT)".data)
      ("failed to execute schema statement: boom".data) = false ∧
    containsSub ("1".data)
      ("failed to execute schema statement: boom".data) = false :=
  ⟨by decide, by decide, by decide⟩

/-- C4 (amended): every statement failure whose message contains
`"already exists"` is swallowed, so schema application reports no error
when all failures are of that kind — in particular running
`InitializeSchema` twice against a freshly created database (modelled by
`toyEngine`) returns no error on either call — while any other statement
failure aborts immediately with an error that wraps the underlying cause
but carries neither the index nor the text of the failing statement. -/
theorem schema_swallow_already_exists {σ : Type} (tq : String → String)
    (exec : σ → String → σ × Option String) (schema : String) (st : σ)
    (hx : ∀ (st' : σ) (s e : String), (exec st' s).2 = some e →
      containsSub ("already exists".data) e.data = true) :
    (SchemaManager.InitializeSchema tq exec schema st).err = none ∧
    (∀ sch : String,
      (SchemaManager.InitializeSchema id toyEngine sch []).err = none ∧
      (SchemaManager.InitializeSchema id toyEngine sch
        (SchemaManager.InitializeSchema id toyEngine sch []).state).err = none) ∧
    (∀ (exec2 : σ → String → σ × Option String) (st2 : σ) (m : String),
      (SchemaManager.InitializeSchema tq exec2 schema st2).err = some m →
      ∃ e, m = "failed to execute schema statement: " ++ e ∧
        containsSub ("already exists".data) e.data = false) := by
  refine ⟨runStmts_swallow tq exec hx _ _, ?_, ?_⟩
  · intro sch
    exact ⟨runStmts_swallow id toyEngine toyEngine_err_already_exists _ _,
           runStmts_swallow id toyEngine toyEngine_err_already_exists _ _⟩
  · intro exec2 st2 m h
    exact (runStmts_err_shape tq exec2 _ st2 m h).2

/-- Witness for the amended C4: the toy engine only ever fails with
already-exists messages, so a concrete schema application reports none. -/
theorem schema_swallow_already_exists_w :
    (SchemaManager.InitializeSchema (σ := List String) id toyEngine
        "CREATE TABLE a (x INT);" []).err = none :=
  (schema_swallow_already_exists id toyEngine "CREATE TABLE a (x INT);" []
      (fun st' s e h => toyEngine_err_already_exists st' s e h)).1

/-- C10: schema application is not atomic on error — when it reports an
error, the statements it executed form exactly a prefix of the transformed
statement sequence (every statement before the failing one has been run),
at least one statement was attempted, and the final database state is the
plain left-to-right fold of `Exec` over the executed statements: nothing
is rolled back before the error is returned. -/
theorem schema_not_atomic {σ : Type} (tq : String → String)
    (exec : σ → String → σ × Option String) (schema : String) (st : σ)
    (h : (SchemaManager.InitializeSchema tq exec schema st).err.isSome) :
    (SchemaManager.InitializeSchema tq exec schema st).executed =
      ((schemaStmts schema).map tq).take
        (SchemaManager.InitializeSchema tq exec schema st).executed.length ∧
    (SchemaManager.InitializeSchema tq exec schema st).state =
      (SchemaManager.InitializeSchema tq exec schema st).executed.foldl
        (fun a q => (exec a q).1) st ∧
    (SchemaManager.InitializeSchema tq exec schema st).executed ≠ [] := by
  rcases hm : (SchemaManager.InitializeSchema tq exec schema st).err with _ | m
  · rw [hm] at h
    simp at h
  · exact ⟨(runStmts_prefix_fold tq exec _ st).1,
           (runStmts_prefix_fold tq exec _ st).2,
           (runStmts_err_shape tq exec _ st m hm).1⟩

/-- Witness for C10 with an oracle that fails fatally on every statement. -/
theorem schema_not_atomic_w :
    (SchemaManager.InitializeSchema (σ := Unit) id (fun st _ => (st, some "boom"))
        "CREATE TABLE a (x INT);" ()).executed ≠ [] :=
  (schema_not_atomic id (fun st _ => (st, some "boom"))
      "CREATE TABLE a (x INT);" () (by decide)).2.2

/-- C5 counterexample: with a configuration requesting five open
connections, `Connect` succeeds and the resulting pool allows five open
connections, not one — the source passes `conf.MaxOpenConns` to the pool
unchanged and never caps it. -/
theorem sqlite_writer_cap_cex :
    (sqliteConnect envOk d0 cfg5).2 = none ∧
    ((sqliteConnect envOk d0 cfg5).1.db.map Pool.maxOpen) = some 5 ∧
    ((sqliteConnect envOk d0 cfg5).1.db.map Pool.maxOpen) ≠ some 1 :=
  ⟨by decide, by decide, by decide⟩

/-- C5 (amended): a successful `Connect` sets the pool's open-connection
limit to exactly the `MaxOpenConns` of the supplied configuration; the
single-writer cap of one connection comes only from the default
configuration `NewSQLiteConfig`, whose `MaxOpenConns` is 1 — `Connect`
itself does not enforce it. -/
theorem sqlite_pool_from_config (env : ConnectEnv) (d : SQLiteDriverState)
    (conf : DBConfig) (h : (sqliteConnect env d conf).2 = none) :
    (sqliteConnect env d conf).1.db = some
      { dsn := sqliteDSN conf.sqlitePath, maxOpen := conf.maxOpenConns,
        maxIdle := conf.maxIdleConns } ∧
    ∀ p : String, (NewSQLiteConfig p).maxOpenConns = 1 := by
  rcases hm : env.mkdirErr with _ | e
  · rcases hp : env.pingErr with _ | e
    · rcases hx : env.exec sqliteFKPragma with _ | e
      · simp only [sqliteConnect, hm, hp, hx]
        exact ⟨trivial, fun p => rfl⟩
      · simp [sqliteConnect, hm, hp, hx] at h
    · simp [sqliteConnect, hm, hp] at h
  · simp [sqliteConnect, hm] at h

/-- Witness for the amended C5: connecting with the default configuration
yields a pool whose open-connection limit is 1. -/
theorem sqlite_pool_from_config_w :
    (sqliteConnect envOk d0 (NewSQLiteConfig "data/tujifund.db")).1.db = some
      { dsn := sqliteDSN "data/tujifund.db", maxOpen := 1, maxIdle := 2 } :=
  (sqlite_pool_from_config envOk d0 (NewSQLiteConfig "data/tujifund.db")
    (by decide)).1

/-- C8: the result of `sql.Open` is discarded by `Connect` — the source
reads `if err != nil { }` with an empty body — so the behaviour of
`Connect` is identical whether opening the pool fails or not; in
particular a `Connect` call during which `sql.Open` fails can still return
success, contradicting the claim that every failure yields a
`ConnectionError` wrapping the cause. -/
theorem sqlite_connect_ignores_open_error (env : ConnectEnv)
    (d : SQLiteDriverState) (conf : DBConfig) (e : String) :
    sqliteConnect { env with openErr := some e } d conf =
      sqliteConnect { env with openErr := none } d conf ∧
    (sqliteConnect { envOk with openErr := some "unable to open database file" }
        d0 (NewSQLiteConfig "data/tujifund.db")).2 = none :=
  ⟨rfl, by decide⟩

/-- C9: the DSN built by `Connect` does request write-ahead journaling,
and a pragma failure makes `Connect` return an error; but the statement it
executes to enable foreign keys is `"PRAGMA foreign_keys = ON:"` — a
trailing colon instead of the documented `"PRAGMA foreign_keys = ON;"` —
so the statement is malformed and foreign-key enforcement is not enabled. -/
theorem sqlite_wal_and_fk_pragma :
    sqliteDSN "data/tujifund.db" =
      "file:data/tujifund.db?cache=shared&_journal_mode=WAL" ∧
    sqliteFKPragma = "PRAGMA foreign_keys = ON:" ∧
    sqliteFKPragma ≠ "PRAGMA foreign_keys = ON;" ∧
    (sqliteConnect
        { envOk with exec := fun s =>
            if s = sqliteFKPragma then some "syntax error" else none }
        d0 (NewSQLiteConfig "data/tujifund.db")).2 =
      some "failed to enable foreign keys: syntax error" :=
  ⟨by decide, rfl, by decide, by decide⟩

theorem migrateGo_target {α : Type} (B : Nat) (hB : 0 < B) :
    ∀ (fuel : Nat) (rem tgt : List α), rem.length ≤ fuel →
      (migrateGo B fuel rem tgt).1 = tgt ++ rem := by
  intro fuel
  induction fuel with
  | zero =>
    intro rem tgt h
    have hr : rem = [] := List.eq_nil_of_length_eq_zero (Nat.le_zero.mp h)
    subst hr
    simp [migrateGo]
  | succ n ih =>
    intro rem tgt h
    cases rem with
    | nil => simp [migrateGo]
    | cons r rs =>
      simp only [List.length_cons] at h
      have h2 : ((r :: rs).drop B).length ≤ n := by
        simp only [List.length_drop, List.length_cons]
        omega
      simp only [migrateGo]
      rw [ih _ _ h2, List.append_assoc, List.take_append_drop]

theorem migrateGo_batches {α : Type} (B : Nat) (hB : 0 < B) :
    ∀ (fuel : Nat) (rem tgt : List α), rem.length ≤ fuel →
      (migrateGo B fuel rem tgt).2 = (rem.length + B - 1) / B := by
  intro fuel
  induction fuel with
  | zero =>
    intro rem tgt h
    have hr : rem = [] := List.eq_nil_of_length_eq_zero (Nat.le_zero.mp h)
    subst hr
    simp only [migrateGo, List.length_nil, Nat.zero_add]
    exact (Nat.div_eq_of_lt (by omega)).symm
  | succ n ih =>
    intro rem tgt h
    cases rem with
    | nil =>
      simp only [migrateGo, List.length_nil, Nat.zero_add]
      exact (Nat.div_eq_of_lt (by omega)).symm
    | cons r rs =>
      simp only [List.length_cons] at h
      have h2 : ((r :: rs).drop B).length ≤ n := by
        simp only [List.length_drop, List.length_cons]
        omega
      simp only [migrateGo]
      rw [ih _ _ h2]
      simp only [List.length_drop, List.length_cons]
      rcases Nat.lt_or_ge rs.length B with hlt | hge
      · have hz : rs.length + 1 - B = 0 := by omega
        have h01 : (0 + B - 1) / B = 0 := Nat.div_eq_of_lt (by omega)
        have hsum : rs.length + 1 + B - 1 = rs.length + B := by omega
        rw [hz, h01, hsum, Nat.add_div_right _ hB, Nat.div_eq_of_lt hlt]
      · have e1 : rs.length + 1 - B + B - 1 = rs.length := by omega
        have e2 : rs.length + 1 + B - 1 = rs.length + B := by omega
        rw [e1, e2, Nat.add_div_right _ hB]

theorem migrateGo_target_take {α : Type} (B : Nat) :
    ∀ (fuel : Nat) (rem tgt : List α), ∃ m : Nat,
      (migrateGo B fuel rem tgt).1 = tgt ++ rem.take m := by
  intro fuel
  induction fuel with
  | zero =>
    intro rem tgt
    exact ⟨0, by simp [migrateGo]⟩
  | succ n ih =>
    intro rem tgt
    cases rem with
    | nil => exact ⟨0, by simp [migrateGo]⟩
    | cons r rs =>
      obtain ⟨m, hm⟩ := ih ((r :: rs).drop B) (tgt ++ (r :: rs).take B)
      refine ⟨B + m, ?_⟩
      simp only [migrateGo]
      rw [hm, List.append_assoc, ← List.take_add]

/-- C2 (spec-modelled): for a source table of N rows and batch size B > 0
the runner performs exactly the ceiling of N/B batches (computed as
(N + B - 1) / B); the committed offset equals the number of committed rows
and advances only when a batch commits, and a run interrupted after any
number k of committed batches and then resumed from the recorded offset
ends with the target holding exactly the N source rows in order — no row
duplicated, no row missing. -/
theorem migration_exactly_once (B k : Nat) (src : List Nat) (hB : 0 < B) :
    (migrateGo B src.length src ([] : List Nat)).2 = (src.length + B - 1) / B ∧
    (migrateGo B src.length
        (src.drop (migrateGo B k src ([] : List Nat)).1.length)
        (migrateGo B k src ([] : List Nat)).1).1 = src := by
  constructor
  · exact migrateGo_batches B hB src.length src [] (Nat.le_refl _)
  · obtain ⟨m, hm⟩ := migrateGo_target_take B k src ([] : List Nat)
    simp only [List.nil_append] at hm
    rw [hm]
    have hlen : (src.drop (src.take m).length).length ≤ src.length := by
      simp only [List.length_drop]
      omega
    rw [migrateGo_target B hB src.length _ _ hlen, List.length_take]
    rcases Nat.le_total m src.length with hle | hge
    · rw [min_eq_left hle]
      exact List.take_append_drop m src
    · rw [min_eq_right hge, List.take_of_length_le hge, List.drop_length,
        List.append_nil]

/-- Witness for C2: batch size 2 over five rows gives three batches, and a
run interrupted after one committed batch and resumed transfers the five
rows exactly once. -/
theorem migration_exactly_once_w :
    0 < 2 ∧
    ((migrateGo 2 ([10, 20, 30, 40, 50] : List Nat).length [10, 20, 30, 40, 50]
        ([] : List Nat)).2 = (([10, 20, 30, 40, 50] : List Nat).length + 2 - 1) / 2 ∧
     (migrateGo 2 ([10, 20, 30, 40, 50] : List Nat).length
        ([10, 20, 30, 40, 50].drop
          (migrateGo 2 1 ([10, 20, 30, 40, 50] : List Nat) ([] : List Nat)).1.length)
        (migrateGo 2 1 ([10, 20, 30, 40, 50] : List Nat) ([] : List Nat)).1).1 =
       [10, 20, 30, 40, 50]) :=
  ⟨by decide, migration_exactly_once 2 1 [10, 20, 30, 40, 50] (by decide)⟩
